import Mathlib

/-!
Verification of the mach-flow hyperparameter-tuning repository.

This file shallowly embeds the two source modules of the repository:

* basin_level/cli.py: the search-space presets (LSTM, TCN, MHA) built from
  suggest_categorical field rules, and the experiment entry point that
  constructs the pruner, the sampler and the tuner with literal arguments
  and then runs tune followed by xval.

* utils/analysis.py: study_summary, study_plots, get_cdf, plot_cdf and
  plot_xval_cdf. External collaborators (optuna, the file system, xarray
  data loading, figure rendering) are passed in as explicit parameters;
  raised exceptions are modelled with an explicit error component and
  side effects with an explicit effect trace.

Numeric literals from the Python source are embedded as exact rationals.
-/

namespace MachFlow

/-- A hyperparameter value as it appears in a suggest_categorical choice
list in basin_level/cli.py: an integer, a float (embedded as an exact
rational) or a string. -/
inductive HPValue where
  | int (n : ℤ)
  | real (q : ℚ)
  | str (s : String)
deriving DecidableEq, Repr

/-- An exact rational given by a numerator and a denominator already in
lowest terms. The decimal literals of the Python source are embedded
through this constructor so that all comparisons reduce by computation. -/
def ratLit (n : ℤ) (d : ℕ) (hd : d ≠ 0) (hr : n.natAbs.Coprime d) : ℚ :=
  ⟨n, d, hd, hr⟩

/-- The source literal 0.2 as an exact rational. -/
def q0_2 : ℚ := ratLit 1 5 (by decide) (by decide)

/-- The source literals 0.1 and 1e-1 as an exact rational. -/
def q0_1 : ℚ := ratLit 1 10 (by decide) (by decide)

/-- The source literal 1e-2 as an exact rational. -/
def q1em2 : ℚ := ratLit 1 100 (by decide) (by decide)

/-- The source literal 1e-3 as an exact rational. -/
def q1em3 : ℚ := ratLit 1 1000 (by decide) (by decide)

/-- The source literal 1e-4 as an exact rational. -/
def q1em4 : ℚ := ratLit 1 10000 (by decide) (by decide)

/-- The embedded rationals agree with the decimal values written in the
Python source. -/
lemma ratLit_values :
    q0_2 = (0.2 : ℚ) ∧ q0_1 = (0.1 : ℚ) ∧ q1em2 = (0.01 : ℚ) ∧
    q1em3 = (0.001 : ℚ) ∧ q1em4 = (0.0001 : ℚ) := by
  refine ⟨?_, ?_, ?_, ?_, ?_⟩ <;>
    simp only [q0_2, q0_1, q1em2, q1em3, q1em4, ratLit] <;>
    rw [Rat.mk'_eq_divInt, Rat.divInt_eq_div] <;> norm_num

/-- One field rule of a search space: the field name passed to
suggest_categorical together with its literal choice list. -/
structure FieldRule where
  name : String
  domain : List HPValue
deriving DecidableEq, Repr

/-- Embeds get_enc_search_space in basin_level/cli.py: the shared encoder
field rules (model_dim, enc_dropout, fusion_method). -/
def get_enc_search_space : List FieldRule :=
  [⟨"model_dim", [.int 64, .int 128, .int 256]⟩,
   ⟨"enc_dropout", [.real 0, .real q0_2]⟩,
   ⟨"fusion_method", [.str "pre_encoded", .str "pre_repeated", .str "post_repeated"]⟩]

/-- Embeds get_optimizer_search_space in basin_level/cli.py: the optimizer
field rules (lr, weight_decay). -/
def get_optimizer_search_space : List FieldRule :=
  [⟨"lr", [.real q1em4, .real q1em3, .real q1em2]⟩,
   ⟨"weight_decay", [.real q0_1, .real q1em2, .real q1em3]⟩]

/-- A SearchSpace preset class as declared in basin_level/cli.py: its class
name, the MODEL class it targets, and the field rules of its model group
and optimizer group. -/
structure SearchSpacePreset where
  name : String
  modelName : String
  model : List FieldRule
  optimizer : List FieldRule
deriving DecidableEq, Repr

/-- Embeds the LSTMSearchSpace class of basin_level/cli.py. -/
def LSTMSearchSpace : SearchSpacePreset :=
  { name := "LSTMSearchSpace"
    modelName := "LSTM"
    model := get_enc_search_space ++ [⟨"lstm_layers", [.int 1, .int 2]⟩]
    optimizer := get_optimizer_search_space }

/-- Embeds the TCNSearchSpace class of basin_level/cli.py. -/
def TCNSearchSpace : SearchSpacePreset :=
  { name := "TCNSearchSpace"
    modelName := "TCN"
    model := get_enc_search_space ++
      [⟨"tcn_kernel_size", [.int 8, .int 16]⟩,
       ⟨"tcn_layers", [.int 2, .int 3, .int 4]⟩,
       ⟨"tcn_dropout", [.real 0, .real q0_2]⟩]
    optimizer := get_optimizer_search_space }

/-- Embeds the (active, uncommented) MHASearchSpace class of
basin_level/cli.py. -/
def MHASearchSpace : SearchSpacePreset :=
  { name := "MHASearchSpace"
    modelName := "MHA"
    model := get_enc_search_space ++
      [⟨"mha_heads", [.int 2, .int 4]⟩,
       ⟨"mha_layers", [.int 1]⟩,
       ⟨"mha_max_context", [.int 50]⟩,
       ⟨"mha_dropout", [.real 0, .real q0_1]⟩]
    optimizer := get_optimizer_search_space }

/-- The SearchSpace preset classes defined (selectable) in
basin_level/cli.py, in source order. The commented-out wider MHA variant
is not a class definition and therefore does not appear here. -/
def cliPresets : List SearchSpacePreset :=
  [LSTMSearchSpace, TCNSearchSpace, MHASearchSpace]

/-- All field rules a preset declares, model group then optimizer group,
in declaration order. -/
def SearchSpacePreset.fields (p : SearchSpacePreset) : List FieldRule :=
  p.model ++ p.optimizer

/-- The field names a preset suggests, in declaration order. -/
def SearchSpacePreset.fieldNames (p : SearchSpacePreset) : List String :=
  (p.fields).map FieldRule.name

/-- The domain a preset declares for a given field name, if any. -/
def SearchSpacePreset.domainOf (p : SearchSpacePreset) (f : String) :
    Option (List HPValue) :=
  ((p.fields).find? (fun r => r.name = f)).map FieldRule.domain

/-- Arguments of the optuna.pruners.HyperbandPruner call in the entry
point of basin_level/cli.py. -/
structure HyperbandPrunerArgs where
  min_resource : ℕ
  reduction_factor : ℕ
deriving DecidableEq, Repr

/-- Arguments of the optuna.samplers.TPESampler call in the entry point
of basin_level/cli.py. -/
structure TPESamplerArgs where
  consider_prior : Bool
  n_startup_trials : ℕ
  seed : ℕ
  multivariate : Bool
deriving DecidableEq, Repr

/-- One step of the experiment entry point of basin_level/cli.py. -/
inductive MainEvent where
  | constructPruner (args : HyperbandPrunerArgs)
  | constructSampler (args : TPESamplerArgs)
  | constructTuner (log_dir : String)
  | tune (n_trials : ℕ)
  | xval
deriving DecidableEq, Repr

/-- Embeds the body of the entry point block of basin_level/cli.py as the
sequence of calls it performs. The script reads neither argv nor the
environment, so the events are the same for every invocation; the two
parameters model the process configuration surface available to it. -/
def mainEvents (_argv : List String) (_env : List (String × String)) :
    List MainEvent :=
  [MainEvent.constructPruner ⟨10, 3⟩,
   MainEvent.constructSampler ⟨false, 15, 1, true⟩,
   MainEvent.constructTuner "/mydata/machflow/basil/runs",
   MainEvent.tune 60,
   MainEvent.xval]

/-- Claim C1: in the experiment entry point the pruner is constructed with
min_resource 10 and reduction_factor 3, the sampler with seed 1,
n_startup_trials 15 and multivariate mode enabled, and the tuning budget is
n_trials 60; the event sequence is independent of argv and the environment,
so all of these hyperparameters are fixed literals at the call site rather
than read from a configuration surface. -/
theorem cli_main_hyperparameters_fixed (argv argv2 : List String)
    (env env2 : List (String × String)) :
    mainEvents argv env = mainEvents argv2 env2 ∧
    MainEvent.constructPruner ⟨10, 3⟩ ∈ mainEvents argv env ∧
    MainEvent.constructSampler ⟨false, 15, 1, true⟩ ∈ mainEvents argv env ∧
    MainEvent.tune 60 ∈ mainEvents argv env := by
  refine ⟨rfl, ?_, ?_, ?_⟩ <;> simp [mainEvents]

/-- Claim C2: for every SearchSpace preset defined in basin_level/cli.py,
the field names suggested across the model and optimizer groups are
pairwise distinct, and the shared encoder fields (model_dim, enc_dropout,
fusion_method) and optimizer fields (lr, weight_decay) are all declared,
so a materialized configuration binds exactly one value per declared
field and no two groups declare the same field name. -/
theorem searchspace_field_names_nodup :
    (∀ p ∈ cliPresets, p.fieldNames.Nodup) ∧
    (∀ p ∈ cliPresets,
      "model_dim" ∈ p.fieldNames ∧ "enc_dropout" ∈ p.fieldNames ∧
      "fusion_method" ∈ p.fieldNames ∧ "lr" ∈ p.fieldNames ∧
      "weight_decay" ∈ p.fieldNames) := by
  decide

/-- Claim C4: in the experiment entry point, the tune call with budget 60
occurs exactly once, the xval call occurs exactly once, and tune strictly
precedes xval in the sequence of performed calls, for every argv and
environment. -/
theorem cli_main_xval_after_tune (argv : List String)
    (env : List (String × String)) :
    (mainEvents argv env).count (MainEvent.tune 60) = 1 ∧
    (mainEvents argv env).count MainEvent.xval = 1 ∧
    (mainEvents argv env).indexOf (MainEvent.tune 60) <
      (mainEvents argv env).indexOf MainEvent.xval := by
  have h : mainEvents argv env = mainEvents [] [] := rfl
  rw [h]
  decide

/-- Claim C5: exactly one of the selectable SearchSpace presets targets the
MHA model, and its active domains are mha_heads in 2 or 4, mha_layers
exactly 1, mha_max_context exactly 50 and mha_dropout 0 or 0.1; the wider
attention variant is not among the selectable presets. -/
theorem mha_preset_unique_and_domains :
    (cliPresets.filter (fun p => p.modelName == "MHA")).length = 1 ∧
    MHASearchSpace ∈ cliPresets ∧
    MHASearchSpace.modelName = "MHA" ∧
    MHASearchSpace.domainOf "mha_heads" = some [.int 2, .int 4] ∧
    MHASearchSpace.domainOf "mha_layers" = some [.int 1] ∧
    MHASearchSpace.domainOf "mha_max_context" = some [.int 50] ∧
    MHASearchSpace.domainOf "mha_dropout" = some [.real 0, .real q0_1] ∧
    (∀ p ∈ cliPresets, p.modelName = "MHA" → p = MHASearchSpace) := by
  decide

/-- Claim C6: every categorical domain declared by every SearchSpace preset
of basin_level/cli.py is a non-empty list, so no field rule can present an
empty domain to the sampler. -/
theorem searchspace_domains_nonempty :
    ∀ p ∈ cliPresets, ∀ r ∈ p.fields, r.domain ≠ [] := by
  decide

/-- Witness for claim C6 at the MHA preset and its mha_layers rule. -/
theorem searchspace_domains_nonempty_witness :
    (⟨"mha_layers", [HPValue.int 1]⟩ : FieldRule).domain ≠ [] :=
  searchspace_domains_nonempty MHASearchSpace (by decide)
    ⟨"mha_layers", [HPValue.int 1]⟩ (by decide)

/-! ## Embedding of utils/analysis.py -/

/-- An opaque handle for an optuna Study object as used by the analysis
code. -/
structure Study where
  handle : ℕ
deriving DecidableEq, Repr

/-- A Python exception as observed by the analysis code: the classes the
code distinguishes (RuntimeError and ValueError are caught in
study_plots) plus a catch-all for every other class. -/
inductive PyError where
  | runtimeError (msg : String)
  | valueError (msg : String)
  | keyError (msg : String)
  | other (cls msg : String)
deriving DecidableEq, Repr

/-- True for the two exception classes that the loop in study_plots
catches and ignores. -/
def PyError.caughtByStudyPlots : PyError → Bool
  | .runtimeError _ => true
  | .valueError _ => true
  | _ => false

/-- A side effect performed by the functions of utils/analysis.py. The
createStudyCall constructor exists so that its absence from every trace
is statable; no function of the module emits it. -/
inductive AnalysisEffect where
  | makedirs (path : String)
  | loadStudyCall (study_name storage : String)
  | createStudyCall (study_name storage : String)
  | writeImage (path : String)
  | writeHtml (path : String)
  | printError (plot : String)
  | writeIndexHtml (dir : String)
  | loadXvalTestSet (dir : String)
  | buildFigure
  | savefig (path : String)
deriving DecidableEq, Repr

/-- Embeds os.path.dirname for POSIX paths: the prefix up to the last
slash, with trailing slashes stripped unless the result is all slashes. -/
def dirname (p : String) : String :=
  let cs := p.toList
  let head := (cs.reverse.dropWhile (fun c => c ≠ '/')).reverse
  let head2 :=
    if head ≠ [] ∧ ¬ head.all (fun c => c = '/') then
      (head.reverse.dropWhile (fun c => c = '/')).reverse
    else head
  String.mk head2

/-- Embeds os.path.join for a relative second component. -/
def joinPath (a b : String) : String :=
  if a = "" then b
  else if a.endsWith "/" then a ++ b
  else a ++ "/" ++ b

/-- The OPTUNA_PLOTS_TUNING list of utils/analysis.py. -/
def OPTUNA_PLOTS_TUNING : List String :=
  ["plot_slice", "plot_contour", "plot_rank", "plot_intermediate_values",
   "plot_optimization_history", "plot_parallel_coordinate",
   "plot_param_importances", "plot_timeline"]

/-- The OPTUNA_PLOTS_XVAL list of utils/analysis.py. -/
def OPTUNA_PLOTS_XVAL : List String :=
  ["plot_timeline"]

/-- True when the outcome of rendering one plot is either success or an
exception of one of the two caught classes. -/
def okOrCaught : Except PyError Unit → Bool
  | .ok _ => true
  | .error e => e.caughtByStudyPlots

/-- Embeds the for-loop of study_plots. The render collaborator stands
for producing one optuna figure and writing its png and html files; it
either succeeds or raises. A caught RuntimeError or ValueError turns into
a printed message and the loop continues; any other exception aborts the
loop, and the effects of the earlier iterations remain in the trace. -/
def plotsLoop (render : String → Except PyError Unit) (out_dir : String) :
    List String → List AnalysisEffect × Option PyError
  | [] => ([], none)
  | p :: rest =>
    match render p with
    | .ok _ =>
        let r := plotsLoop render out_dir rest
        (AnalysisEffect.writeImage (joinPath out_dir (p ++ ".png")) ::
         AnalysisEffect.writeHtml (joinPath out_dir (p ++ ".html")) :: r.1, r.2)
    | .error e =>
        if e.caughtByStudyPlots then
          let r := plotsLoop render out_dir rest
          (AnalysisEffect.printError p :: r.1, r.2)
        else ([], some e)

/-- Embeds study_plots of utils/analysis.py: selects the plot list by
is_xval, runs the loop, and calls create_html (which writes index.html
into out_dir) only when the loop finishes without an uncaught
exception. -/
def study_plots (render : String → Except PyError Unit) (out_dir : String)
    (is_xval : Bool) : List AnalysisEffect × Option PyError :=
  let optuna_plots := if is_xval then OPTUNA_PLOTS_XVAL else OPTUNA_PLOTS_TUNING
  let r := plotsLoop render out_dir optuna_plots
  match r.2 with
  | none => (r.1 ++ [AnalysisEffect.writeIndexHtml out_dir], none)
  | some e => (r.1, some e)

/-- Embeds study_summary of utils/analysis.py: derives the plot directory
from study_path, creates it, reopens the study by name from the sqlite
store at study_path through the load collaborator (optuna.load_study),
and on success runs study_plots. A load failure propagates: nothing after
the load call runs. -/
def study_summary (load : String → String → Except PyError Study)
    (render : Study → String → Except PyError Unit)
    (study_path study_name : String) (is_xval : Bool) :
    List AnalysisEffect × Option PyError :=
  let plot_dir := joinPath (dirname study_path) "optuna_plots"
  let storage := "sqlite:///" ++ study_path
  match load study_name storage with
  | .error e =>
      ([AnalysisEffect.makedirs plot_dir,
        AnalysisEffect.loadStudyCall study_name storage], some e)
  | .ok st =>
      let r := study_plots (render st) plot_dir is_xval
      (AnalysisEffect.makedirs plot_dir ::
       AnalysisEffect.loadStudyCall study_name storage :: r.1, r.2)

/-- Embeds the save-handling skeleton of plot_cdf of utils/analysis.py:
the metric/figure pipeline is abstracted as the buildFig collaborator,
and the figure is saved if and only if save_path is not None — there is
no guard against a missing save_path. -/
def plot_cdf (buildFig : Except PyError Unit) (save_path : Option String) :
    List AnalysisEffect × Option PyError :=
  match buildFig with
  | .error e => ([], some e)
  | .ok _ =>
      (AnalysisEffect.buildFigure ::
        (match save_path with
         | some p => [AnalysisEffect.savefig p]
         | none => []), none)

/-- Embeds plot_xval_cdf of utils/analysis.py: first the explicit guard
raising ValueError when save_path is None, then the data loading and
metric computation (abstracted as the loadData collaborator, starting
with load_xval_test_set), then the delegation to plot_cdf. -/
def plot_xval_cdf (loadData : Except PyError Unit)
    (buildFig : Except PyError Unit) (xval_dir : String)
    (save_path : Option String) : List AnalysisEffect × Option PyError :=
  match save_path with
  | none => ([], some (PyError.valueError "argument `save_path` cannot be None."))
  | some p =>
      match loadData with
      | .error e => ([AnalysisEffect.loadXvalTestSet xval_dir], some e)
      | .ok _ =>
          let r := plot_cdf buildFig (some p)
          (AnalysisEffect.loadXvalTestSet xval_dir :: r.1, r.2)

/-- Every effect the plot loop emits is a png write, an html write or a
printed error message. -/
lemma plotsLoop_shape (render : String → Except PyError Unit)
    (out_dir : String) :
    ∀ ps : List String, ∀ eff ∈ (plotsLoop render out_dir ps).1,
      (∃ p, eff = AnalysisEffect.writeImage p) ∨
      (∃ p, eff = AnalysisEffect.writeHtml p) ∨
      (∃ p, eff = AnalysisEffect.printError p)
  | [] => by simp [plotsLoop]
  | p :: rest => by
    intro eff heff
    cases hrp : render p with
    | ok u =>
      simp only [plotsLoop, hrp, List.mem_cons] at heff
      rcases heff with h | h | h
      · exact Or.inl ⟨_, h⟩
      · exact Or.inr (Or.inl ⟨_, h⟩)
      · exact plotsLoop_shape render out_dir rest eff h
    | error e =>
      by_cases hc : e.caughtByStudyPlots
      · simp only [plotsLoop, hrp, hc, if_true, List.mem_cons] at heff
        rcases heff with h | h
        · exact Or.inr (Or.inr ⟨_, h⟩)
        · exact plotsLoop_shape render out_dir rest eff h
      · simp only [plotsLoop, hrp, hc, if_false] at heff
        simp at heff

/-- The plot loop finishes without an uncaught exception exactly when
every plot either renders or raises one of the two caught classes. -/
lemma plotsLoop_none_iff (render : String → Except PyError Unit)
    (out_dir : String) :
    ∀ ps : List String, (plotsLoop render out_dir ps).2 = none ↔
      ∀ p ∈ ps, okOrCaught (render p) = true
  | [] => by simp [plotsLoop]
  | p :: rest => by
    cases hrp : render p with
    | ok u =>
      simp only [plotsLoop, hrp, List.mem_cons]
      rw [plotsLoop_none_iff render out_dir rest]
      constructor
      · intro h q hq
        rcases hq with rfl | hq
        · simp [okOrCaught, hrp]
        · exact h q hq
      · intro h q hq
        exact h q (Or.inr hq)
    | error e =>
      by_cases hc : e.caughtByStudyPlots
      · simp only [plotsLoop, hrp, hc, if_true, List.mem_cons]
        rw [plotsLoop_none_iff render out_dir rest]
        constructor
        · intro h q hq
          rcases hq with rfl | hq
          · simp [okOrCaught, hrp, hc]
          · exact h q hq
        · intro h q hq
          exact h q (Or.inr hq)
      · simp only [plotsLoop, hrp, hc, if_false]
        constructor
        · intro h
          simp at h
        · intro h
          have := h p (List.mem_cons_self p rest)
          simp [okOrCaught, hrp] at this
          exact absurd this hc

/-- When the plot loop aborts with an uncaught exception, that exception
was raised by some plot of the list, every earlier plot was handled, and
the emitted trace is exactly the trace of the earlier plots. -/
lemma plotsLoop_err_decomp (render : String → Except PyError Unit)
    (out_dir : String) :
    ∀ ps : List String, ∀ e, (plotsLoop render out_dir ps).2 = some e →
      e.caughtByStudyPlots = false ∧
      ∃ pre p post, ps = pre ++ p :: post ∧ render p = Except.error e ∧
        (∀ q ∈ pre, okOrCaught (render q) = true) ∧
        (plotsLoop render out_dir ps).1 = (plotsLoop render out_dir pre).1
  | [] => by simp [plotsLoop]
  | p :: rest => by
    intro e he
    cases hrp : render p with
    | ok u =>
      simp only [plotsLoop, hrp] at he ⊢
      obtain ⟨hce, pre, q, post, hps, hq, hpre, htr⟩ :=
        plotsLoop_err_decomp render out_dir rest e he
      refine ⟨hce, p :: pre, q, post, by simp [hps], hq, ?_, ?_⟩
      · intro x hx
        rcases List.mem_cons.mp hx with rfl | hx
        · simp [okOrCaught, hrp]
        · exact hpre x hx
      · simp only [plotsLoop, hrp]
        rw [htr]
    | error err =>
      by_cases hc : err.caughtByStudyPlots
      · simp only [plotsLoop, hrp, hc, if_true] at he ⊢
        obtain ⟨hce, pre, q, post, hps, hq, hpre, htr⟩ :=
          plotsLoop_err_decomp render out_dir rest e he
        refine ⟨hce, p :: pre, q, post, by simp [hps], hq, ?_, ?_⟩
        · intro x hx
          rcases List.mem_cons.mp hx with rfl | hx
          · simp [okOrCaught, hrp, hc]
          · exact hpre x hx
        · simp only [plotsLoop, hrp, hc, if_true]
          rw [htr]
      · simp only [plotsLoop, hrp, hc, if_false] at he ⊢
        cases he
        refine ⟨by simpa using hc, [], p, rest, rfl, hrp, by simp, by simp [plotsLoop]⟩

/-- When every plot of the list is handled, each plot that raises a
caught exception leaves a printed message in the trace. -/
lemma plotsLoop_print (render : String → Except PyError Unit)
    (out_dir : String) :
    ∀ ps : List String, (∀ q ∈ ps, okOrCaught (render q) = true) →
      ∀ p ∈ ps, ∀ e, render p = Except.error e →
        AnalysisEffect.printError p ∈ (plotsLoop render out_dir ps).1
  | [] => by simp
  | p :: rest => by
    intro hall q hq e hqe
    cases hrp : render p with
    | ok u =>
      simp only [plotsLoop, hrp, List.mem_cons]
      rcases List.mem_cons.mp hq with rfl | hq
      · rw [hrp] at hqe
        cases hqe
      · exact Or.inr (Or.inr
          (plotsLoop_print render out_dir rest
            (fun x hx => hall x (List.mem_cons_of_mem _ hx)) q hq e hqe))
    | error err =>
      have hc : err.caughtByStudyPlots = true := by
        have := hall p (List.mem_cons_self _ _)
        simpa [okOrCaught, hrp] using this
      simp only [plotsLoop, hrp, hc, if_true, List.mem_cons]
      rcases List.mem_cons.mp hq with rfl | hq
      · exact Or.inl rfl
      · exact Or.inr
          (plotsLoop_print render out_dir rest
            (fun x hx => hall x (List.mem_cons_of_mem _ hx)) q hq e hqe)

/-- study_plots unfolded: the loop runs, and create_html runs only when
the loop finished without an uncaught exception. -/
lemma study_plots_eq (render : String → Except PyError Unit)
    (out_dir : String) (is_xval : Bool) :
    study_plots render out_dir is_xval =
      match (plotsLoop render out_dir
          (if is_xval then OPTUNA_PLOTS_XVAL else OPTUNA_PLOTS_TUNING)).2 with
      | none =>
          ((plotsLoop render out_dir
              (if is_xval then OPTUNA_PLOTS_XVAL else OPTUNA_PLOTS_TUNING)).1 ++
            [AnalysisEffect.writeIndexHtml out_dir], none)
      | some e =>
          ((plotsLoop render out_dir
              (if is_xval then OPTUNA_PLOTS_XVAL else OPTUNA_PLOTS_TUNING)).1,
           some e) := rfl

/-- study_plots never creates a study: its trace holds only plot writes,
printed messages and the html index. -/
lemma study_plots_no_createStudy (render : String → Except PyError Unit)
    (out_dir : String) (is_xval : Bool) (s n : String) :
    AnalysisEffect.createStudyCall s n ∉ (study_plots render out_dir is_xval).1 := by
  intro hmem
  rw [study_plots_eq] at hmem
  rcases hsnd : (plotsLoop render out_dir
      (if is_xval then OPTUNA_PLOTS_XVAL else OPTUNA_PLOTS_TUNING)).2 with _ | e
  · rw [hsnd] at hmem
    simp only [List.mem_append, List.mem_singleton] at hmem
    rcases hmem with hmem | hmem
    · rcases plotsLoop_shape render out_dir _ _ hmem with ⟨p, hp⟩ | ⟨p, hp⟩ | ⟨p, hp⟩ <;>
        simp at hp
    · simp at hmem
  · rw [hsnd] at hmem
    simp only [] at hmem
    rcases plotsLoop_shape render out_dir _ _ hmem with ⟨p, hp⟩ | ⟨p, hp⟩ | ⟨p, hp⟩ <;>
      simp at hp

/-- Claim C3: study_summary opens the existing study by reopening it by
name from the sqlite store located at study_path (optuna.load_study); it
never creates a study; and when the load fails the exception propagates:
the run performed only the directory creation and the failed load call,
so no plot file and no html index was produced. -/
theorem study_summary_load_failure_propagates
    (load : String → String → Except PyError Study)
    (render : Study → String → Except PyError Unit)
    (study_path study_name : String) (is_xval : Bool) :
    AnalysisEffect.loadStudyCall study_name ("sqlite:///" ++ study_path) ∈
      (study_summary load render study_path study_name is_xval).1 ∧
    (∀ s n, AnalysisEffect.createStudyCall s n ∉
      (study_summary load render study_path study_name is_xval).1) ∧
    ∀ e, load study_name ("sqlite:///" ++ study_path) = Except.error e →
      study_summary load render study_path study_name is_xval =
        ([AnalysisEffect.makedirs (joinPath (dirname study_path) "optuna_plots"),
          AnalysisEffect.loadStudyCall study_name ("sqlite:///" ++ study_path)],
         some e) := by
  cases hl : load study_name ("sqlite:///" ++ study_path) with
  | error e =>
    refine ⟨?_, ?_, ?_⟩
    · simp [study_summary, hl]
    · intro s n
      simp [study_summary, hl]
    · intro e2 hl2
      cases hl2
      simp [study_summary, hl]
  | ok st =>
    refine ⟨?_, ?_, ?_⟩
    · simp [study_summary, hl]
    · intro s n hmem
      simp only [study_summary, hl, List.mem_cons] at hmem
      rcases hmem with h | h | h
      · cases h
      · cases h
      · exact study_plots_no_createStudy (render st) _ is_xval s n h
    · intro e2 hl2
      cases hl2

/-- Witness load collaborator that always fails, as optuna.load_study
does for a missing study name. -/
def loadAlwaysFails (_study_name _storage : String) : Except PyError Study :=
  Except.error (PyError.keyError "Record does not exist.")

/-- Witness render collaborator that always succeeds. -/
def renderOk (_st : Study) (_p : String) : Except PyError Unit :=
  Except.ok ()

/-- Witness for claim C3 at a concrete store path and study name. -/
theorem study_summary_load_failure_witness :
    study_summary loadAlwaysFails renderOk "/runs/study.db" "basil" false =
      ([AnalysisEffect.makedirs (joinPath (dirname "/runs/study.db") "optuna_plots"),
        AnalysisEffect.loadStudyCall "basil" ("sqlite:///" ++ "/runs/study.db")],
       some (PyError.keyError "Record does not exist.")) :=
  (study_summary_load_failure_propagates loadAlwaysFails renderOk
    "/runs/study.db" "basil" false).2.2 _ rfl

/-- Claim C9: study_plots selects the eight tuning plots, or only
plot_timeline when is_xval is set; when every selected plot either
renders or raises one of the two caught classes (RuntimeError,
ValueError), the loop finishes, every caught exception leaves a printed
message, and create_html writes the index into out_dir; when any plot
raises an exception of another class, it propagates: the trace is exactly
that of the plots before the failing one and the html index is never
written. -/
theorem study_plots_exception_policy
    (render : String → Except PyError Unit) (out_dir : String) (is_xval : Bool) :
    OPTUNA_PLOTS_XVAL = ["plot_timeline"] ∧
    OPTUNA_PLOTS_TUNING.length = 8 ∧
    ((∀ p ∈ (if is_xval then OPTUNA_PLOTS_XVAL else OPTUNA_PLOTS_TUNING),
        okOrCaught (render p) = true) →
      (study_plots render out_dir is_xval).2 = none ∧
      AnalysisEffect.writeIndexHtml out_dir ∈ (study_plots render out_dir is_xval).1 ∧
      ∀ p ∈ (if is_xval then OPTUNA_PLOTS_XVAL else OPTUNA_PLOTS_TUNING),
        ∀ e, render p = Except.error e →
          AnalysisEffect.printError p ∈ (study_plots render out_dir is_xval).1) ∧
    ∀ e, (study_plots render out_dir is_xval).2 = some e →
      e.caughtByStudyPlots = false ∧
      (∃ pre p post,
        (if is_xval then OPTUNA_PLOTS_XVAL else OPTUNA_PLOTS_TUNING) =
          pre ++ p :: post ∧
        render p = Except.error e ∧
        (∀ q ∈ pre, okOrCaught (render q) = true) ∧
        (study_plots render out_dir is_xval).1 = (plotsLoop render out_dir pre).1) ∧
      ∀ d, AnalysisEffect.writeIndexHtml d ∉ (study_plots render out_dir is_xval).1 := by
  refine ⟨rfl, rfl, ?_, ?_⟩
  · intro hall
    have h2 : (plotsLoop render out_dir
        (if is_xval then OPTUNA_PLOTS_XVAL else OPTUNA_PLOTS_TUNING)).2 = none :=
      (plotsLoop_none_iff render out_dir _).mpr hall
    refine ⟨?_, ?_, ?_⟩
    · rw [study_plots_eq, h2]
    · rw [study_plots_eq, h2]
      simp
    · intro p hp e he
      rw [study_plots_eq, h2]
      simp only [List.mem_append]
      exact Or.inl (plotsLoop_print render out_dir _ hall p hp e he)
  · intro e hsome
    rcases hsnd : (plotsLoop render out_dir
        (if is_xval then OPTUNA_PLOTS_XVAL else OPTUNA_PLOTS_TUNING)).2 with _ | e2
    · rw [study_plots_eq, hsnd] at hsome
      cases hsome
    · rw [study_plots_eq, hsnd] at hsome
      simp only [Option.some.injEq] at hsome
      subst hsome
      obtain ⟨hce, pre, p, post, hps, hp, hpre, htr⟩ :=
        plotsLoop_err_decomp render out_dir _ e2 hsnd
      refine ⟨hce, ⟨pre, p, post, hps, hp, hpre, ?_⟩, ?_⟩
      · rw [study_plots_eq, hsnd]
        exact htr
      · intro d hmem
        rw [study_plots_eq, hsnd] at hmem
        rcases plotsLoop_shape render out_dir _ _ hmem with ⟨x, hx⟩ | ⟨x, hx⟩ | ⟨x, hx⟩ <;>
          simp at hx

/-- Witness render collaborator: one tuning plot raises a ValueError,
all others succeed. -/
def renderWithValueError (p : String) : Except PyError Unit :=
  if p == "plot_contour" then Except.error (PyError.valueError "not enough data")
  else Except.ok ()

/-- Witness for claim C9: with one caught ValueError among the tuning
plots, the loop finishes, the message is printed and the index is
written. -/
theorem study_plots_exception_policy_witness :
    (study_plots renderWithValueError "/plots" false).2 = none ∧
    AnalysisEffect.writeIndexHtml "/plots" ∈
      (study_plots renderWithValueError "/plots" false).1 ∧
    ∀ p ∈ (if false then OPTUNA_PLOTS_XVAL else OPTUNA_PLOTS_TUNING),
      ∀ e, renderWithValueError p = Except.error e →
        AnalysisEffect.printError p ∈
          (study_plots renderWithValueError "/plots" false).1 :=
  (study_plots_exception_policy renderWithValueError "/plots" false).2.2.1
    (by decide)

/-- Claim C10: plot_xval_cdf raises a ValueError whenever save_path is
None, before any data is loaded or figure produced; for every provided
save_path the guard passes and the data loading proceeds; plot_cdf
itself accepts a missing save_path without error and merely skips the
savefig call, saving exactly when a path is provided. -/
theorem plot_xval_cdf_save_path_guard
    (loadData buildFig : Except PyError Unit) (xval_dir : String) :
    plot_xval_cdf loadData buildFig xval_dir none =
      ([], some (PyError.valueError "argument `save_path` cannot be None.")) ∧
    (∀ p, AnalysisEffect.loadXvalTestSet xval_dir ∈
      (plot_xval_cdf loadData buildFig xval_dir (some p)).1) ∧
    plot_cdf (Except.ok ()) none = ([AnalysisEffect.buildFigure], none) ∧
    (∀ p, plot_cdf (Except.ok ()) (some p) =
      ([AnalysisEffect.buildFigure, AnalysisEffect.savefig p], none)) := by
  refine ⟨rfl, ?_, rfl, fun p => rfl⟩
  intro p
  cases loadData with
  | error e => simp [plot_xval_cdf]
  | ok u => simp [plot_xval_cdf]

/-! ## Spec-modelled sampler (the Tuner and utils.tuning are not among
the given sources) -/

/-- A trial record of the study history as read by the sampler. -/
structure TrialRecord where
  id : ℕ
  params : List (String × HPValue)
  value : ℚ
  complete : Bool
deriving DecidableEq, Repr

/-- One step of a linear congruential generator: the pseudo-random core
of the modelled sampler. -/
def lcgNext (s : ℕ) : ℕ :=
  (6364136223846793005 * s + 1442695040888963407) % (2 ^ 64)

/-- Modelled from the spec: one draw of the TPE sampler (optuna
TPESampler, constructed in the entry point of basin_level/cli.py; the
Tuner and the utils.tuning module are missing from the given sources).
Per the spec a draw is a pure function of the seeded pseudo-random state
and the study history: before n_startup_trials completed trials it is a
uniform pseudo-random choice over the declared domain, afterwards it
additionally conditions on the completed-trial history (summarised
deterministically). -/
def suggestValue (args : TPESamplerArgs) (history : List TrialRecord)
    (rng : ℕ) (rule : FieldRule) : HPValue × ℕ :=
  let rng2 := lcgNext rng
  let completed := history.filter (fun t => t.complete)
  let idx :=
    if completed.length < args.n_startup_trials then
      rng2 % rule.domain.length
    else
      (rng2 + (completed.map (fun t => t.id)).sum) % rule.domain.length
  (rule.domain.getD idx (HPValue.int 0), rng2)

/-- Modelled from the spec: materializing one Configuration draws every
field of the search space in declaration order, threading the
pseudo-random state that starts from the sampler seed. -/
def materializeConfig (args : TPESamplerArgs) (history : List TrialRecord)
    (rules : List FieldRule) : List (String × HPValue) :=
  (rules.foldl
    (fun acc rule =>
      let r := suggestValue args history acc.2 rule
      (acc.1 ++ [(rule.name, r.1)], r.2))
    ([], args.seed)).1

/-- Claim C7: two runs of the tuner with identical sampler arguments (the
entry point fixes seed 1, n_startup_trials 15, multivariate mode) and
identical study history suggest identical configurations for any preset
search space: the modelled sampling is a deterministic function of the
seed and the history. -/
theorem sampler_reproducible (args : TPESamplerArgs)
    (p : SearchSpacePreset) (_hp : p ∈ cliPresets)
    (h1 h2 : List TrialRecord) (hh : h1 = h2) :
    materializeConfig args h1 p.fields = materializeConfig args h2 p.fields := by
  subst hh
  rfl

/-- Witness for claim C7 at the entry point sampler arguments, the LSTM
preset and a small concrete history. -/
theorem sampler_reproducible_witness :
    materializeConfig ⟨false, 15, 1, true⟩
        [⟨0, [("lr", HPValue.real q1em3)], 1, true⟩] LSTMSearchSpace.fields =
      materializeConfig ⟨false, 15, 1, true⟩
        [⟨0, [("lr", HPValue.real q1em3)], 1, true⟩] LSTMSearchSpace.fields :=
  sampler_reproducible ⟨false, 15, 1, true⟩ LSTMSearchSpace (by decide)
    [⟨0, [("lr", HPValue.real q1em3)], 1, true⟩]
    [⟨0, [("lr", HPValue.real q1em3)], 1, true⟩] rfl

/-! ## get_cdf of utils/analysis.py -/

/-- The histogram counts of np.histogram over bin edges given by an
ascending list of finite edges with infinity appended: for consecutive
finite edges a and b the bin is the half-open interval from a (inclusive)
to b (exclusive), and the final bin, from the last finite edge to
infinity, holds every value at or above that edge. Values below the first
edge are not counted, as in numpy. -/
def histCounts (vals : List ℚ) : List ℚ → List ℕ
  | [] => []
  | [a] => [vals.countP (fun v => decide (a ≤ v))]
  | a :: b :: rest =>
      vals.countP (fun v => decide (a ≤ v ∧ v < b)) :: histCounts vals (b :: rest)

/-- The number of bins of the given edge list that contain the value v. -/
def binsFor (v : ℚ) : List ℚ → ℕ
  | [] => 0
  | [a] => if a ≤ v then 1 else 0
  | a :: b :: rest => (if a ≤ v ∧ v < b then 1 else 0) + binsFor v (b :: rest)

/-- Running cumulative sums starting from acc (np.cumsum). -/
def cumsumFrom (acc : ℚ) : List ℚ → List ℚ
  | [] => []
  | x :: xs => (acc + x) :: cumsumFrom (acc + x) xs

/-- The numpy median of a list: the middle element of the ascending sort
for odd length, the mean of the two middle elements for even length. -/
def npMedian (vals : List ℚ) : ℚ :=
  let s := List.insertionSort (· ≤ ·) vals
  if s.length % 2 = 1 then s.getD (s.length / 2) 0
  else (s.getD (s.length / 2 - 1) 0 + s.getD (s.length / 2) 0) / 2

/-- Embeds get_cdf of utils/analysis.py. The DataArray is a list of
optional rationals; none stands for a missing (null) value. The code
drops nulls, uses the sorted values with infinity appended as bin edges,
histograms the values over those edges, discards the final (infinite)
edge so the returned bins are the sorted values, normalises the counts by
their total and accumulates them into the cdf, and takes the median of
the remaining values as the annotation location. -/
def get_cdf (da : List (Option ℚ)) : List ℚ × List ℚ × ℚ :=
  let vals := da.filterMap id
  let bins := List.insertionSort (· ≤ ·) vals
  let count := histCounts vals bins
  let pdf := count.map (fun c : ℕ => (c : ℚ) / (count.sum : ℚ))
  let cdf := cumsumFrom 0 pdf
  (bins, cdf, npMedian vals)

/-- Counting by a predicate is summing its indicator. -/
lemma countP_eq_sum_map {α : Type} (p : α → Bool) :
    ∀ l : List α, l.countP p = (l.map (fun x => if p x then 1 else 0)).sum
  | [] => by simp
  | x :: l => by
    rw [List.countP_cons, countP_eq_sum_map p l, List.map_cons, List.sum_cons]
    cases hpx : p x <;> simp [hpx, Nat.add_comm]

/-- Sums of pointwise sums split. -/
lemma sum_map_add_nat {α : Type} (f g : α → ℕ) :
    ∀ l : List α, (l.map (fun x => f x + g x)).sum = (l.map f).sum + (l.map g).sum
  | [] => by simp
  | x :: l => by
    simp only [List.map_cons, List.sum_cons, sum_map_add_nat f g l]
    omega

/-- A list of ones sums to the length. -/
lemma sum_map_one {α : Type} : ∀ l : List α, (l.map (fun _ => (1 : ℕ))).sum = l.length
  | [] => rfl
  | x :: l => by simp [sum_map_one l, Nat.add_comm]

/-- The histogram totals can be computed per value: each value
contributes the number of bins that contain it. -/
lemma histCounts_sum_eq (vals : List ℚ) :
    ∀ edges : List ℚ,
      (histCounts vals edges).sum = (vals.map (fun v => binsFor v edges)).sum
  | [] => by simp [histCounts, binsFor]
  | [a] => by
    simp [histCounts, binsFor, countP_eq_sum_map]
  | a :: b :: rest => by
    rw [histCounts, List.sum_cons, histCounts_sum_eq vals (b :: rest),
      countP_eq_sum_map, ← sum_map_add_nat]
    have hfun : ∀ v : ℚ,
        ((if (decide (a ≤ v ∧ v < b)) = true then 1 else 0) + binsFor v (b :: rest))
          = binsFor v (a :: b :: rest) := by
      intro v
      simp [binsFor]
    simp only [hfun]

/-- A value strictly below the first edge lies in no bin. -/
lemma binsFor_zero (v : ℚ) :
    ∀ (es : List ℚ) (a : ℚ), (a :: es).Sorted (· ≤ ·) → v < a →
      binsFor v (a :: es) = 0
  | [], a, _, hva => by
    simp [binsFor, not_le.mpr hva]
  | b :: rest, a, hs, hva => by
    have hab : a ≤ b := (List.sorted_cons.mp hs).1 b (by simp)
    have htail : (b :: rest).Sorted (· ≤ ·) := (List.sorted_cons.mp hs).2
    have h1 : ¬ (a ≤ v ∧ v < b) := fun hc => absurd hva (not_lt.mpr hc.1)
    simp [binsFor, h1, binsFor_zero v rest b htail (lt_of_lt_of_le hva hab)]

/-- A value at or above the first edge of a sorted edge list lies in
exactly one bin. -/
lemma binsFor_one (v : ℚ) :
    ∀ (es : List ℚ) (a : ℚ), (a :: es).Sorted (· ≤ ·) → a ≤ v →
      binsFor v (a :: es) = 1
  | [], a, _, hav => by simp [binsFor, hav]
  | b :: rest, a, hs, hav => by
    have htail : (b :: rest).Sorted (· ≤ ·) := (List.sorted_cons.mp hs).2
    by_cases hvb : v < b
    · have h0 : binsFor v (b :: rest) = 0 := binsFor_zero v rest b htail hvb
      simp [binsFor, hav, hvb, h0]
    · have hbv : b ≤ v := not_lt.mp hvb
      have h1 : binsFor v (b :: rest) = 1 := binsFor_one v rest b htail hbv
      simp [binsFor, hvb, h1]

/-- Histogramming values over the edges given by their own ascending
sort counts every value exactly once. -/
lemma histCounts_sum_length (vals : List ℚ) :
    (histCounts vals (List.insertionSort (· ≤ ·) vals)).sum = vals.length := by
  rw [histCounts_sum_eq]
  have hsort : (List.insertionSort (· ≤ ·) vals).Sorted (· ≤ ·) :=
    List.sorted_insertionSort _ _
  have hone : ∀ v ∈ vals, binsFor v (List.insertionSort (· ≤ ·) vals) = 1 := by
    intro v hv
    have hvs : v ∈ List.insertionSort (· ≤ ·) vals :=
      (List.perm_insertionSort _ vals).mem_iff.mpr hv
    cases hse : List.insertionSort (· ≤ ·) vals with
    | nil =>
      rw [hse] at hvs
      cases hvs
    | cons a t =>
      rw [hse] at hvs hsort
      have hav : a ≤ v := by
        rcases List.mem_cons.mp hvs with rfl | hvt
        · exact le_refl v
        · exact (List.sorted_cons.mp hsort).1 v hvt
      exact binsFor_one v t a hsort hav
  rw [List.map_congr_left hone, sum_map_one]

/-- Cumulative sums of non-negative terms form a non-decreasing chain. -/
lemma cumsumFrom_chain : ∀ (l : List ℚ), (∀ x ∈ l, 0 ≤ x) → ∀ acc : ℚ,
    (cumsumFrom acc l).Chain' (· ≤ ·)
  | [], _, acc => by simp [cumsumFrom]
  | [x], _, acc => by simp [cumsumFrom]
  | x :: y :: ys, h, acc => by
    have h2 : ∀ z ∈ y :: ys, 0 ≤ z := fun z hz => h z (List.mem_cons_of_mem _ hz)
    have hy : 0 ≤ y := h y (by simp)
    have ih : List.Chain' (· ≤ ·) ((acc + x + y) :: cumsumFrom (acc + x + y) ys) :=
      cumsumFrom_chain (y :: ys) h2 (acc + x)
    show List.Chain' (· ≤ ·) ((acc + x) :: (acc + x + y) :: cumsumFrom (acc + x + y) ys)
    exact List.chain'_cons.mpr ⟨by linarith, ih⟩

/-- The final cumulative sum is the start plus the total. -/
lemma cumsumFrom_getLast : ∀ (l : List ℚ) (acc : ℚ), l ≠ [] →
    (cumsumFrom acc l).getLast? = some (acc + l.sum)
  | [], _, hne => absurd rfl hne
  | [x], acc, _ => by simp [cumsumFrom]
  | x :: y :: ys, acc, _ => by
    have ih := cumsumFrom_getLast (y :: ys) (acc + x) (by simp)
    have hne : cumsumFrom (acc + x) (y :: ys)
        = (acc + x + y) :: cumsumFrom (acc + x + y) ys := rfl
    rw [cumsumFrom, hne, List.getLast?_cons_cons, ← hne, ih]
    congr 1
    simp only [List.sum_cons]
    ring

/-- Dividing each cast count by a common denominator divides the total. -/
lemma sum_map_natCast_div (d : ℚ) :
    ∀ count : List ℕ, (count.map (fun c : ℕ => (c : ℚ) / d)).sum = (count.sum : ℚ) / d
  | [] => by simp
  | c :: l => by
    simp only [List.map_cons, List.sum_cons, sum_map_natCast_div d l,
      Nat.cast_add, add_div]

/-- The histogram of a non-empty edge list is non-empty. -/
lemma histCounts_ne_nil (vals : List ℚ) :
    ∀ s : List ℚ, s ≠ [] → histCounts vals s ≠ []
  | [], hne => absurd rfl hne
  | [a], _ => by simp [histCounts]
  | a :: b :: rest, _ => by simp [histCounts]

/-- Claim C8: for every input array with at least one non-null value,
get_cdf returns bins equal to the non-null values sorted in ascending
order (an ascending list that is a permutation of the non-null values), a
cdf that is non-decreasing with final entry exactly one, and an
annotation location equal to the median of the non-null values. -/
theorem get_cdf_spec (da : List (Option ℚ)) (h : da.filterMap id ≠ []) :
    (get_cdf da).1.Sorted (· ≤ ·) ∧
    (get_cdf da).1.Perm (da.filterMap id) ∧
    (get_cdf da).2.1.Chain' (· ≤ ·) ∧
    (get_cdf da).2.1.getLast? = some 1 ∧
    (get_cdf da).2.2 = npMedian (da.filterMap id) := by
  have hbins : (get_cdf da).1 = List.insertionSort (· ≤ ·) (da.filterMap id) := rfl
  have hcdf : (get_cdf da).2.1 =
      cumsumFrom 0
        ((histCounts (da.filterMap id)
            (List.insertionSort (· ≤ ·) (da.filterMap id))).map
          (fun c : ℕ => (c : ℚ) /
            ((histCounts (da.filterMap id)
                (List.insertionSort (· ≤ ·) (da.filterMap id))).sum : ℚ))) := rfl
  have hmed : (get_cdf da).2.2 = npMedian (da.filterMap id) := rfl
  refine ⟨?_, ?_, ?_, ?_, hmed⟩
  · rw [hbins]
    exact List.sorted_insertionSort _ _
  · rw [hbins]
    exact List.perm_insertionSort _ _
  · rw [hcdf]
    apply cumsumFrom_chain
    intro x hx
    rcases List.mem_map.mp hx with ⟨c, _, rfl⟩
    exact div_nonneg (Nat.cast_nonneg c) (Nat.cast_nonneg _)
  · rw [hcdf]
    have hsne : List.insertionSort (· ≤ ·) (da.filterMap id) ≠ [] := by
      intro hnil
      apply h
      have hperm := List.perm_insertionSort (· ≤ ·) (da.filterMap id)
      rw [hnil] at hperm
      exact (List.Perm.symm hperm).eq_nil
    have hcne : histCounts (da.filterMap id)
        (List.insertionSort (· ≤ ·) (da.filterMap id)) ≠ [] :=
      histCounts_ne_nil _ _ hsne
    have hpne : (histCounts (da.filterMap id)
        (List.insertionSort (· ≤ ·) (da.filterMap id))).map
          (fun c : ℕ => (c : ℚ) /
            ((histCounts (da.filterMap id)
                (List.insertionSort (· ≤ ·) (da.filterMap id))).sum : ℚ)) ≠ [] := by
      simpa using hcne
    rw [cumsumFrom_getLast _ 0 hpne, sum_map_natCast_div, histCounts_sum_length]
    have hlen : (da.filterMap id).length ≠ 0 := by
      simpa [List.length_eq_zero] using h
    rw [zero_add, div_self (by exact_mod_cast hlen)]

/-- Witness for claim C8 on a concrete array holding a null entry and the
values 1, 3 and 2. -/
theorem get_cdf_spec_witness :
    ([some (1 : ℚ), none, some 3, some 2].filterMap id ≠ []) ∧
    ((get_cdf [some (1 : ℚ), none, some 3, some 2]).1.Sorted (· ≤ ·) ∧
     (get_cdf [some (1 : ℚ), none, some 3, some 2]).1.Perm
       ([some (1 : ℚ), none, some 3, some 2].filterMap id) ∧
     (get_cdf [some (1 : ℚ), none, some 3, some 2]).2.1.Chain' (· ≤ ·) ∧
     (get_cdf [some (1 : ℚ), none, some 3, some 2]).2.1.getLast? = some 1 ∧
     (get_cdf [some (1 : ℚ), none, some 3, some 2]).2.2 =
       npMedian ([some (1 : ℚ), none, some 3, some 2].filterMap id)) :=
  ⟨by decide, get_cdf_spec [some (1 : ℚ), none, some 3, some 2] (by decide)⟩

end MachFlow
